import Mathlib

/-!
Shallow embedding of the Cotizador_Demo lot-management core:
the CSV-backed Express server (server.mjs), the identifier/normalization
helpers shared with the seed script (scripts/seed-supabase-from-csv.mjs)
and the Supabase service layer, and the proforma/quote pricing engine of
the React app (src/App.tsx).

Numbers are modelled as rationals; JavaScript string primitives (trim,
toUpperCase, parseInt, parseFloat, Number) are embedded over lists of
characters with the ASCII behavior the data exercises.
-/

namespace Cotizador

/-- ASCII whitespace recognized by the embedded trim (JS trims a larger
Unicode class; the repository data is ASCII). -/
def isWS (c : Char) : Bool :=
  c = ' ' || c = '\t' || c = '\n' || c = '\r' || c = '\x0b' || c = '\x0c'

def ltrimWS (l : List Char) : List Char := l.dropWhile isWS

def rtrimWS (l : List Char) : List Char := (l.reverse.dropWhile isWS).reverse

/-- Embeds `String(value ?? "").trim()` (server.mjs normalizeText). -/
def normalizeText (s : String) : String := String.mk (rtrimWS (ltrimWS s.data))

/-- Embeds JS `toUpperCase()` on ASCII data. -/
def toUpperStr (s : String) : String := String.mk (s.data.map Char.toUpper)

/-- Embeds the JS idiom `s || undefined`: empty string becomes `undefined`. -/
def strOpt (s : String) : Option String := if s = "" then none else some s

def digitVal (c : Char) : Nat := c.toNat - '0'.toNat

def natOfDigits (l : List Char) : Nat := l.foldl (fun acc c => acc * 10 + digitVal c) 0

def leadDigits (l : List Char) : List Char := l.takeWhile Char.isDigit

def pow10 : Nat → Nat
  | 0 => 1
  | n + 1 => 10 * pow10 n

def parseIntCore (l : List Char) : Option Int :=
  let ds := leadDigits l
  if ds.isEmpty then none else some (Int.ofNat (natOfDigits ds))

/-- Embeds `Number.parseInt(s, 10)`: skip leading whitespace, optional
sign, then the longest digit run; `NaN` (here `none`) when no digits. -/
def parseIntJS (s : String) : Option Int :=
  match ltrimWS s.data with
  | '-' :: rest => (parseIntCore rest).map (fun n => -n)
  | '+' :: rest => parseIntCore rest
  | l => parseIntCore l

def parseFloatCore (l : List Char) : Option ℚ :=
  let intDs := leadDigits l
  let rest := l.drop intDs.length
  let fracDs := match rest with
    | '.' :: r => leadDigits r
    | _ => []
  if intDs.isEmpty && fracDs.isEmpty then none
  else some (mkRat (natOfDigits intDs * pow10 fracDs.length + natOfDigits fracDs)
    (pow10 fracDs.length))

/-- Embeds `Number.parseFloat`: optional sign, digits, optional fraction;
trailing garbage ignored, `NaN` is `none`.  Exponent forms cannot occur
here: every call site first strips the input to the alphabet
`[0-9.,-]`. -/
def parseFloatJS (s : String) : Option ℚ :=
  match ltrimWS s.data with
  | '-' :: rest => (parseFloatCore rest).map (fun q => -q)
  | '+' :: rest => parseFloatCore rest
  | l => parseFloatCore l

def numberBody (l : List Char) : Option ℚ :=
  let intDs := leadDigits l
  let rest := l.drop intDs.length
  match rest with
  | [] => if intDs.isEmpty then none else some (natOfDigits intDs : ℚ)
  | '.' :: r =>
    let fracDs := leadDigits r
    if (r.drop fracDs.length).isEmpty then
      if intDs.isEmpty && fracDs.isEmpty then none
      else some (mkRat (natOfDigits intDs * pow10 fracDs.length + natOfDigits fracDs)
        (pow10 fracDs.length))
    else none
  | _ => none

/-- Embeds JS `Number(s)` on plain decimal literals (the form produced by
`<input type="number">`): whole-string parse, empty trims to `0`,
invalid text is `NaN` (`none`). -/
def numberJS (s : String) : Option ℚ :=
  match rtrimWS (ltrimWS s.data) with
  | [] => some 0
  | '-' :: rest => (numberBody rest).map (fun q => -q)
  | '+' :: rest => numberBody rest
  | l => numberBody l

/-- Character class kept by `replace(/[^\d.,-]/g, "")`. -/
def isNumAllowed (c : Char) : Bool := c.isDigit || c = '.' || c = ',' || c = '-'

def stripNonNum (l : List Char) : List Char := l.filter isNumAllowed

/-- Embeds `replace(",", "")` on a string pattern: deletes the first comma only. -/
def dropFirstComma : List Char → List Char
  | [] => []
  | c :: rest => if c = ',' then rest else c :: dropFirstComma rest

/-- Embeds `replace(",", ".")` on a string pattern: rewrites the first comma only. -/
def commaToDot : List Char → List Char
  | [] => []
  | c :: rest => if c = ',' then '.' :: rest else c :: commaToDot rest

/-- server.mjs / App.tsx cleanNumber: falsy input (empty string) is null;
otherwise strip to `[0-9.,-]`, delete the first comma (thousands
separator), parseFloat, and null out non-finite results. -/
def cleanNumber (s : String) : Option ℚ :=
  if s = "" then none
  else parseFloatJS (String.mk (dropFirstComma (stripNonNum s.data)))

/-- scripts/seed-supabase-from-csv.mjs cleanNumber: same strip, but the
first comma becomes a decimal point. -/
def cleanNumberSeed (s : String) : Option ℚ :=
  if s = "" then none
  else parseFloatJS (String.mk (commaToDot (stripNonNum s.data)))

def ALLOWED_STATUS : List String := ["LIBRE", "SEPARADO", "VENDIDO"]

/-- server.mjs normalizeStatus: `String(value || "LIBRE").trim().toUpperCase()`,
then membership in the closed status set, defaulting to LIBRE. -/
def normalizeStatus (s : String) : String :=
  let normalized := toUpperStr (normalizeText (if s = "" then "LIBRE" else s))
  if ALLOWED_STATUS.contains normalized then normalized else "LIBRE"

/-- Embeds `String.prototype.padStart(2, "0")`. -/
def jsPadStart2 (s : String) : String :=
  if s.length ≥ 2 then s else String.mk (List.replicate (2 - s.length) '0') ++ s

/-- server.mjs / App.tsx toLoteId: template literal over the raw `mz` and
the zero-padded lot number.  It does not trim or case-normalize `mz`. -/
def toLoteId (mz : String) (lote : Int) : String :=
  mz ++ "-" ++ jsPadStart2 (toString lote)

/-- lib/lotesService.mjs toLoteId (imported by the seed script): this
variant trims and uppercases `mz` itself. -/
def toLoteIdService (mz : String) (lote : Int) : String :=
  toUpperStr (normalizeText mz) ++ "-" ++ jsPadStart2 (toString lote)

/-- server.mjs formatReal: `Number(value).toFixed(2)` — nearest multiple
of 1/100, ties toward +infinity, rendered with two decimals. -/
def formatReal (q : ℚ) : String :=
  let n : Int := Int.floor (q * 100 + 1 / 2)
  let sign := if n < 0 then "-" else ""
  sign ++ toString (n.natAbs / 100) ++ "." ++ jsPadStart2 (toString (n.natAbs % 100))

/-- A parsed CSV record, keyed by header names (Papa.parse with
`header: true` yields string cells; a missing cell reads as the empty
string, which every consumer first passes through normalizeText). -/
structure Row where
  MZ : String := ""
  LOTE : String := ""
  AREA : String := ""
  PRECIO : String := ""
  CONDICION : String := ""
  ASESOR : String := ""
  CLIENTE : String := ""
  COMENTARIO : String := ""
  ULTIMA_MODIFICACION : String := ""
deriving DecidableEq, Inhabited

/-- The lot object served by the API (server.mjs mapRowToLote result). -/
structure Lote where
  id : String
  mz : String
  lote : Int
  areaM2 : Option ℚ
  price : Option ℚ
  condicion : String
  asesor : Option String
  cliente : Option String
  comentario : Option String
  ultimaModificacion : Option String
deriving DecidableEq, Inhabited

/-- server.mjs mapRowToLote: rows with an empty (trimmed) MZ or an
unparsable LOTE map to null and are dropped from listings. -/
def mapRowToLote (row : Row) : Option Lote :=
  let mz := toUpperStr (normalizeText row.MZ)
  match parseIntJS (normalizeText row.LOTE) with
  | none => none
  | some lote =>
    if mz = "" then none
    else some
      { id := toLoteId mz lote
        mz := mz
        lote := lote
        areaM2 := cleanNumber row.AREA
        price := cleanNumber row.PRECIO
        condicion := normalizeStatus row.CONDICION
        asesor := strOpt (normalizeText row.ASESOR)
        cliente := strOpt (normalizeText row.CLIENTE)
        comentario := strOpt (normalizeText row.COMENTARIO)
        ultimaModificacion := strOpt (normalizeText row.ULTIMA_MODIFICACION) }

/-- GET /api/lotes: `rows.map(mapRowToLote).filter(Boolean)`. -/
def listLotes (rows : List Row) : List Lote := rows.filterMap mapRowToLote

/-- The findIndex predicate of PUT /api/lotes/:id: recompute the row's
derived id and compare with the normalized request id. -/
def rowIdMatches (loteId : String) (row : Row) : Bool :=
  let mz := toUpperStr (normalizeText row.MZ)
  match parseIntJS (normalizeText row.LOTE) with
  | none => false
  | some lote => if mz = "" then false else toLoteId mz lote == loteId

/-- Wall-clock reading, as consumed by toCurrentTimestamp (month is
0-based as in `Date.getMonth`). -/
structure DateTime where
  day : Nat
  month : Nat
  year : Nat
  hour : Nat
  minute : Nat
  second : Nat
deriving DecidableEq, Inhabited

def MONTHS : List String :=
  ["ene", "feb", "mar", "abr", "may", "jun", "jul", "ago", "sep", "oct", "nov", "dic"]

def pad2Nat (n : Nat) : String := jsPadStart2 (toString n)

/-- Embeds `String(year).slice(-2)`. -/
def takeRight2 (s : String) : String :=
  if s.length ≤ 2 then s else String.mk (s.data.drop (s.length - 2))

/-- server.mjs toCurrentTimestamp: `dd-mmm-aa hh:mi:ss` display stamp. -/
def toCurrentTimestamp (now : DateTime) : String :=
  pad2Nat now.day ++ "-" ++ MONTHS.getD now.month "undefined" ++ "-" ++
    takeRight2 (toString now.year) ++ " " ++ pad2Nat now.hour ++ ":" ++
    pad2Nat now.minute ++ ":" ++ pad2Nat now.second

/-- A JSON value carried in the PUT body's `price` field. -/
inductive PriceVal where
  | pnum (q : ℚ)
  | pstr (s : String)
  | pnull
deriving DecidableEq

/-- cleanNumber applied to the raw JSON `price` value.  `!value` holds
for `null`, the empty string, `0` and `NaN`, all yielding null.  For a
nonzero finite number, `String(value)` renders a plain decimal literal
(scientific notation only appears outside magnitude `[1e-6, 1e21)`,
beyond any price in this dataset), the character strip keeps it intact,
and parseFloat reads it back: the number passes through unchanged. -/
def cleanNumberVal : PriceVal → Option ℚ
  | .pnull => none
  | .pstr s => cleanNumber s
  | .pnum q => if q = 0 then none else some q

/-- PUT body: `estado`, `asesor`, `cliente`, `comentario` fall back to
the stored cell through `??` (so JSON null and absence coincide), while
`price` is applied only when the key is present. -/
structure Patch where
  estado : Option String := none
  asesor : Option String := none
  cliente : Option String := none
  comentario : Option String := none
  price : Option PriceVal := none
deriving DecidableEq

/-- The row mutation performed by PUT /api/lotes/:id on the found row. -/
def applyPatch (now : DateTime) (p : Patch) (row : Row) : Row :=
  { row with
    CONDICION := normalizeStatus (p.estado.getD row.CONDICION)
    ASESOR := normalizeText (p.asesor.getD row.ASESOR)
    CLIENTE := normalizeText (p.cliente.getD row.CLIENTE)
    COMENTARIO := normalizeText (p.comentario.getD row.COMENTARIO)
    ULTIMA_MODIFICACION := toCurrentTimestamp now
    PRECIO :=
      match p.price with
      | none => row.PRECIO
      | some v =>
        match cleanNumberVal v with
        | none => ""
        | some q => formatReal q }

/-- Embeds `Array.prototype.findIndex`: index of the first match, else -1. -/
def jsFindIndex {α : Type} (p : α → Bool) : List α → Int
  | [] => -1
  | a :: rest =>
    if p a then 0
    else
      let k := jsFindIndex p rest
      if k < 0 then -1 else k + 1

/-- Outcome of one PUT /api/lotes/:id request: the JSON `item` (none is
the 404 branch), the stored dataset afterwards, and whether
writeCsvState ran. -/
structure PutResult where
  response : Option Lote
  rows : List Row
  wrote : Bool
deriving DecidableEq

/-- PUT /api/lotes/:id over the CSV state, with the clock passed
explicitly: normalize the id, find the row by derived id, 404 without
writing when absent, otherwise patch, stamp, persist and return the
re-mapped row. -/
def putLote (now : DateTime) (idRaw : String) (p : Patch) (rows : List Row) : PutResult :=
  let loteId := toUpperStr (normalizeText idRaw)
  let idx := jsFindIndex (rowIdMatches loteId) rows
  if idx < 0 then ⟨none, rows, false⟩
  else
    let row := rows.getD idx.toNat default
    let row2 := applyPatch now p row
    ⟨mapRowToLote row2, rows.set idx.toNat row2, true⟩

/-- App.tsx clamp. -/
def clamp (value lo hi : ℚ) : ℚ := min (max value lo) hi

/-- JS `x || y` on (non-NaN) numbers: `0` is falsy. -/
def jsOr (a b : ℚ) : ℚ := if a = 0 then b else a

/-- JS `Math.round`: nearest integer, ties toward +infinity. -/
def jsRound (q : ℚ) : ℚ := (Int.floor (q + 1 / 2) : ℚ)

/-- Which discount field the user touched last
(`lastPriceEditedRef.current`; `noneEdited` is the initial null). -/
inductive LastEdited where
  | soles
  | pct
  | promo
  | noneEdited
deriving DecidableEq

/-- The numeric slice of App.tsx ProformaState.  The textual fields
(cliente, lote, vendedor, creadoEn) are copied unchanged by the
`...draft` spread in recalcProforma and are elided here. -/
structure ProformaState where
  precioRegular : ℚ
  precioPromocional : ℚ
  descuentoSoles : ℚ
  descuentoPct : ℚ
  diasVigencia : ℚ
  fechaCaducidad : String
  separacion : ℚ
  inicial : ℚ
  meses : ℚ
deriving DecidableEq, Inhabited

/-- App.tsx recalcProforma.  `fechaOf d` stands for
`toDateValue(addDays(new Date(), d))`, the only clock-dependent value. -/
def recalcProforma (lastEdited : LastEdited) (fechaOf : ℚ → String)
    (draft : ProformaState) : ProformaState :=
  let regular := max draft.precioRegular 0
  let promo0 := max draft.precioPromocional 0
  let soles0 := max draft.descuentoSoles 0
  let pct0 := max draft.descuentoPct 0
  let triple : ℚ × ℚ × ℚ :=
    match lastEdited with
    | .soles =>
      let soles := clamp soles0 0 regular
      let pct := if regular ≠ 0 then soles / regular * 100 else 0
      (max (regular - soles) 0, soles, pct)
    | .pct =>
      let pct := clamp pct0 0 100
      let soles := pct / 100 * regular
      (max (regular - soles) 0, soles, pct)
    | .promo =>
      let promo := clamp promo0 0 regular
      let soles := max (regular - promo) 0
      let pct := if regular ≠ 0 then soles / regular * 100 else 0
      (promo, soles, pct)
    | .noneEdited =>
      let promo := clamp promo0 0 regular
      let soles := max (regular - promo) 0
      let pct := if regular ≠ 0 then soles / regular * 100 else 0
      (promo, soles, pct)
  let dias := clamp (jsRound (jsOr draft.diasVigencia 0)) 1 30
  { draft with
    precioRegular := regular
    precioPromocional := triple.1
    descuentoSoles := triple.2.1
    descuentoPct := triple.2.2
    diasVigencia := dias
    fechaCaducidad := fechaOf dias
    separacion := max draft.separacion 0
    inicial := max (jsOr draft.inicial 0) 6000
    meses := clamp (jsRound (jsOr draft.meses 1)) 1 36 }

/-- App.tsx QuoteState (manual quote widget). -/
structure QuoteState where
  precio : ℚ
  inicialMonto : ℚ
  cuotas : ℚ
  interesAnual : ℚ
deriving DecidableEq

/-- Embeds `const montoInicial = Math.min(quote.inicialMonto, quote.precio)` —
the effective down payment fed into the quick-quote computation. -/
def montoInicialOf (q : QuoteState) : ℚ := min q.inicialMonto q.precio

/-- Embeds `const financiado = Math.max(quote.precio - montoInicial, 0)`. -/
def financiadoOf (q : QuoteState) : ℚ := max (q.precio - montoInicialOf q) 0

/-- Legacy app quote input onChange (App.tsx line 1015):
`Number(event.target.value || 0)`, stored with no floor. -/
def legacyInicialOnChange (s : String) : Option ℚ :=
  if s = "" then numberJS "0" else numberJS s

/-- Proforma app quote/proforma down-payment inputs (App.tsx lines 2788
and 3096): `Math.max(Number(event.target.value || 0), 6000)`; a NaN
parse propagates (Math.max with NaN is NaN). -/
def quoteInicialOnChange (s : String) : Option ℚ :=
  (if s = "" then numberJS "0" else numberJS s).map (fun q => max q 6000)

/-! Helper lemmas about the embedded string primitives. -/

theorem dropWhile_self_idem {α : Type} (p : α → Bool) (l : List α) :
    (l.dropWhile p).dropWhile p = l.dropWhile p := by
  induction l with
  | nil => simp
  | cons a t ih =>
    by_cases h : p a
    · simpa [List.dropWhile_cons, h] using ih
    · simp [List.dropWhile_cons, h]

theorem ltrimWS_idem (l : List Char) : ltrimWS (ltrimWS l) = ltrimWS l := by
  simp only [ltrimWS]
  exact dropWhile_self_idem isWS l

theorem rtrimWS_idem (l : List Char) : rtrimWS (rtrimWS l) = rtrimWS l := by
  simp only [rtrimWS, List.reverse_reverse]
  rw [dropWhile_self_idem]

theorem ltrimWS_head_false (l : List Char) (a : Char) (t : List Char)
    (h : ltrimWS l = a :: t) : isWS a = false := by
  induction l with
  | nil => simp [ltrimWS] at h
  | cons b s ih =>
    by_cases hb : isWS b = true
    · exact ih (by simpa [ltrimWS, List.dropWhile_cons, hb] using h)
    · rw [Bool.not_eq_true] at hb
      simp [ltrimWS, List.dropWhile_cons, hb] at h
      rw [← h.1]
      exact hb

theorem ltrimWS_rtrimWS (l : List Char) :
    ltrimWS (rtrimWS (ltrimWS l)) = rtrimWS (ltrimWS l) := by
  have hAfix : ltrimWS (ltrimWS l) = ltrimWS l := ltrimWS_idem l
  have hdec : ltrimWS l =
      rtrimWS (ltrimWS l) ++ ((ltrimWS l).reverse.takeWhile isWS).reverse := by
    simp only [rtrimWS]
    conv_lhs => rw [← (ltrimWS l).reverse_reverse]
    conv_lhs =>
      rw [← List.takeWhile_append_dropWhile (p := isWS) (l := (ltrimWS l).reverse)]
    rw [List.reverse_append]
  cases hB : rtrimWS (ltrimWS l) with
  | nil => rfl
  | cons b t =>
    rw [hB] at hdec
    have hb : isWS b = false := by
      apply ltrimWS_head_false (ltrimWS l) b
        (t ++ ((ltrimWS l).reverse.takeWhile isWS).reverse)
      rw [hAfix]
      simpa using hdec
    simp [ltrimWS, List.dropWhile_cons, hb]

theorem normalizeText_idem (s : String) :
    normalizeText (normalizeText s) = normalizeText s := by
  show String.mk (rtrimWS (ltrimWS (rtrimWS (ltrimWS s.data)))) =
    String.mk (rtrimWS (ltrimWS s.data))
  rw [ltrimWS_rtrimWS, rtrimWS_idem]

theorem toUpperStr_eq_empty_iff (s : String) : toUpperStr s = "" ↔ s = "" := by
  rw [String.ext_iff, String.ext_iff]
  show s.data.map Char.toUpper = ([] : List Char) ↔ s.data = ([] : List Char)
  exact List.map_eq_nil_iff

/-! Helper lemmas about normalizeStatus. -/

theorem allowed_contains_iff (x : String) :
    ALLOWED_STATUS.contains x = true ↔ x = "LIBRE" ∨ x = "SEPARADO" ∨ x = "VENDIDO" := by
  simp [ALLOWED_STATUS, List.contains_cons]

theorem normalizeStatus_mem (s : String) : normalizeStatus s ∈ ALLOWED_STATUS := by
  unfold normalizeStatus
  by_cases h : ALLOWED_STATUS.contains (toUpperStr (normalizeText (if s = "" then "LIBRE" else s))) = true
  · rw [if_pos h]
    rcases (allowed_contains_iff _).1 h with h1 | h1 | h1 <;> rw [h1] <;> simp [ALLOWED_STATUS]
  · rw [if_neg h]
    simp [ALLOWED_STATUS]

theorem normalizeStatus_idem (s : String) :
    normalizeStatus (normalizeStatus s) = normalizeStatus s := by
  have h := normalizeStatus_mem s
  simp only [ALLOWED_STATUS, List.mem_cons, List.not_mem_nil, or_false] at h
  rcases h with h | h | h <;> rw [h] <;> decide

/-! Helper lemmas about findIndex and list surgery. -/

theorem jsFindIndex_none {α : Type} (p : α → Bool) (l : List α)
    (h : ∀ x ∈ l, p x = false) : jsFindIndex p l = -1 := by
  induction l with
  | nil => rfl
  | cons a t ih =>
    have ha := h a (by simp)
    rw [jsFindIndex, ha]
    simp only [Bool.false_eq_true, if_false]
    rw [ih (fun x hx => h x (by simp [hx]))]
    norm_num

theorem jsFindIndex_found {α : Type} (p : α → Bool) (r : α) (hr : p r = true)
    (pre post : List α) (hpre : ∀ x ∈ pre, p x = false) :
    jsFindIndex p (pre ++ r :: post) = (pre.length : Int) := by
  induction pre with
  | nil => simp [jsFindIndex, hr]
  | cons a t ih =>
    have ha := hpre a (by simp)
    have ht := ih (fun x hx => hpre x (by simp [hx]))
    rw [List.cons_append, jsFindIndex, ha]
    simp only [Bool.false_eq_true, if_false]
    rw [ht]
    have hge : ¬ ((t.length : Int) < 0) := by omega
    rw [if_neg hge]
    simp

theorem getD_middle {α : Type} [Inhabited α] (pre : List α) (r : α) (post : List α) :
    (pre ++ r :: post).getD pre.length default = r := by
  induction pre with
  | nil => rfl
  | cons a t ih => simpa using ih

theorem set_middle {α : Type} (pre : List α) (r x : α) (post : List α) :
    (pre ++ r :: post).set pre.length x = pre ++ x :: post := by
  induction pre with
  | nil => rfl
  | cons a t _ => simp

/-! Helper lemmas about the PUT handler. -/

theorem rowIdMatches_spec (loteId : String) (row : Row)
    (h : rowIdMatches loteId row = true) :
    ∃ n : Int, parseIntJS (normalizeText row.LOTE) = some n ∧
      toUpperStr (normalizeText row.MZ) ≠ "" ∧
      toLoteId (toUpperStr (normalizeText row.MZ)) n = loteId := by
  cases hp : parseIntJS (normalizeText row.LOTE) with
  | none => simp [rowIdMatches, hp] at h
  | some n =>
    have h2 : (if toUpperStr (normalizeText row.MZ) = "" then false
        else toLoteId (toUpperStr (normalizeText row.MZ)) n == loteId) = true := by
      simpa [rowIdMatches, hp] using h
    by_cases hmz : toUpperStr (normalizeText row.MZ) = ""
    · rw [if_pos hmz] at h2; simp at h2
    · rw [if_neg hmz] at h2
      exact ⟨n, rfl, hmz, by simpa using h2⟩

theorem mapRowToLote_eq (row : Row) (n : Int)
    (hp : parseIntJS (normalizeText row.LOTE) = some n)
    (hmz : toUpperStr (normalizeText row.MZ) ≠ "") :
    mapRowToLote row = some
      { id := toLoteId (toUpperStr (normalizeText row.MZ)) n
        mz := toUpperStr (normalizeText row.MZ)
        lote := n
        areaM2 := cleanNumber row.AREA
        price := cleanNumber row.PRECIO
        condicion := normalizeStatus row.CONDICION
        asesor := strOpt (normalizeText row.ASESOR)
        cliente := strOpt (normalizeText row.CLIENTE)
        comentario := strOpt (normalizeText row.COMENTARIO)
        ultimaModificacion := strOpt (normalizeText row.ULTIMA_MODIFICACION) } := by
  simp [mapRowToLote, hp, hmz]

theorem putLote_found (now : DateTime) (idRaw : String) (p : Patch)
    (pre post : List Row) (row : Row)
    (hpre : ∀ x ∈ pre, rowIdMatches (toUpperStr (normalizeText idRaw)) x = false)
    (hrow : rowIdMatches (toUpperStr (normalizeText idRaw)) row = true) :
    putLote now idRaw p (pre ++ row :: post) =
      ⟨mapRowToLote (applyPatch now p row), pre ++ applyPatch now p row :: post, true⟩ := by
  simp only [putLote]
  rw [jsFindIndex_found _ row hrow pre post hpre]
  have h0 : ¬ ((pre.length : Int) < 0) := by omega
  rw [if_neg h0]
  simp only [Int.toNat_natCast]
  rw [getD_middle, set_middle]

/-! Additional small lemmas used by the claim theorems. -/

theorem stripNonNum_idem (l : List Char) :
    stripNonNum (stripNonNum l) = stripNonNum l := by
  simp [stripNonNum, List.filter_filter]

theorem clamp_bounds (x lo hi : ℚ) (h : lo ≤ hi) :
    lo ≤ clamp x lo hi ∧ clamp x lo hi ≤ hi := by
  unfold clamp
  exact ⟨le_min (le_max_right x lo) h, min_le_right _ _⟩

theorem pct_of_ratio (r soles : ℚ) (hr : 0 ≤ r) (h0 : 0 ≤ soles) (h1 : soles ≤ r) :
    0 ≤ (if r ≠ 0 then soles / r * 100 else 0) ∧
      (if r ≠ 0 then soles / r * 100 else 0) ≤ 100 := by
  constructor
  · split_ifs with h
    · have hpos : 0 < r := lt_of_le_of_ne hr (Ne.symm h)
      positivity
    · exact le_refl 0
  · split_ifs with h
    · have hpos : 0 < r := lt_of_le_of_ne hr (Ne.symm h)
      have hd : soles / r ≤ 1 := (div_le_one hpos).2 h1
      linarith
    · norm_num

theorem promo_bounds (r soles : ℚ) (h0 : 0 ≤ soles) (h1 : soles ≤ r) :
    max (r - soles) 0 = r - soles ∧ 0 ≤ max (r - soles) 0 ∧ max (r - soles) 0 ≤ r := by
  have hmax : max (r - soles) 0 = r - soles := max_eq_left (by linarith)
  exact ⟨hmax, by rw [hmax]; linarith, by rw [hmax]; linarith⟩

/-! Concrete fixtures used for witnesses and counterexamples. -/

/-- The CSV row of the spec's end-to-end scenario (MZ=A, LOTE=7). -/
def rowA07 : Row :=
  { MZ := "A", LOTE := "7", AREA := "120.50", PRECIO := "45000", CONDICION := "libre" }

/-- A malformed row: the LOTE field is empty, so parseInt yields NaN. -/
def badRow : Row := { MZ := "A", LOTE := "" }

/-- The lot mapRowToLote derives from rowA07. -/
def lotA07 : Lote :=
  { id := "A-07", mz := "A", lote := 7, areaM2 := some (mkRat 241 2)
    price := some 45000, condicion := "LIBRE", asesor := none, cliente := none
    comentario := none, ultimaModificacion := none }

/-- A fixed clock reading for witnesses. -/
def nowW : DateTime := ⟨11, 9, 2026, 14, 30, 0⟩

/-- The patch of the spec's end-to-end scenario. -/
def patchW : Patch := { estado := some "SEPARADO", cliente := some "Juan Perez" }

/-- A concrete proforma draft: 50 percent discount, down payment below
the floor. -/
def proformaW : ProformaState :=
  { precioRegular := 45000, precioPromocional := 0, descuentoSoles := 0
    descuentoPct := 50, diasVigencia := 7, fechaCaducidad := ""
    separacion := 0, inicial := 100, meses := 24 }

/-- A fixed expiry-date renderer standing for the clock-dependent
`toDateValue(addDays(new Date(), d))`. -/
def fechaW : ℚ → String := fun _ => "2026-10-18"

/-- The legacy quote state after the user submits a 100 down payment on
a 45000 lot. -/
def legacyQuoteW : QuoteState :=
  { precio := 45000, inicialMonto := 100, cuotas := 24, interesAnual := 0 }

/-! Claim theorems. -/

/-- C2 (counterexample): the claim says toLoteId uppercases `mz`, so
that toLoteId("a", 7) = "A-07"; the server.mjs / App.tsx toLoteId passes
`mz` through unchanged, and the two casings give different ids. -/
theorem C2_counterexample :
    toLoteId "a" 7 ≠ "A-07" ∧ toLoteId "a" 7 ≠ toLoteId "A" 7 := by decide

/-- C2 (amended): toLoteId zero-pads the lot number to width 2 and
returns "{mz}-{LL}" with `mz` unchanged (so it is deterministic but
case-sensitive); trimming and uppercasing happen in the callers, and in
the lotesService variant, which equals toLoteId composed with the
normalization and maps ("a", 7) to "A-07". -/
theorem C2_id_determinism :
    toLoteId "A" 7 = "A-07" ∧ toLoteId "B" 12 = "B-12" ∧ toLoteId "a" 7 = "a-07" ∧
    (∀ (mz : String) (n : Int),
      toLoteIdService mz n = toLoteId (toUpperStr (normalizeText mz)) n) ∧
    toLoteIdService "a" 7 = "A-07" ∧ toLoteIdService " b " 12 = "B-12" := by
  exact ⟨by decide, by decide, by decide, fun mz n => rfl, by decide, by decide⟩

/-- C6: the seed script's cleanNumber rewrites the first comma to a
decimal point while the runtime server's cleanNumber deletes it, so on
"1,5" the seed path reads 1.5 and the runtime path reads 15; the two
functions are not extensionally equal. -/
theorem C6_ingestion_divergence :
    cleanNumberSeed "1,5" = some (mkRat 3 2) ∧
    cleanNumber "1,5" = some (15 : ℚ) ∧
    cleanNumberSeed ≠ cleanNumber := by
  refine ⟨by decide, by decide, fun h => ?_⟩
  have h2 := congrFun h "1,5"
  exact absurd h2 (by decide)

/-- C7: the runtime cleanNumber keeps only digits, dot, comma and minus
(characters outside that class never change the result), removes the
first comma as a thousands-separator artifact, parses "1,234.50" to
1234.50, maps the empty string to null, and never raises an error (it
is total into an optional rational). -/
theorem C7_lenient_parse :
    cleanNumber "1,234.50" = some (mkRat 2469 2) ∧
    cleanNumber "" = none ∧
    ∀ s : String, cleanNumber s = cleanNumber (String.mk (stripNonNum s.data)) := by
  refine ⟨by decide, rfl, fun s => ?_⟩
  by_cases hs : s = ""
  · subst hs; rfl
  · by_cases h2 : String.mk (stripNonNum s.data) = ""
    · have h3 : stripNonNum s.data = [] := by
        have := congrArg String.data h2
        simpa using this
      rw [h2]
      simp [cleanNumber, hs, h3]
      rfl
    · simp only [cleanNumber, if_neg hs, if_neg h2]
      show parseFloatJS (String.mk (dropFirstComma (stripNonNum s.data))) =
        parseFloatJS (String.mk (dropFirstComma (stripNonNum (stripNonNum s.data))))
      rw [stripNonNum_idem]

/-- C8: normalizeStatus always lands in the closed set
{LIBRE, SEPARADO, VENDIDO}; the input is trimmed and uppercased and kept
when in the set, and any input whose trimmed uppercase form is neither
SEPARADO nor VENDIDO (empty string and arbitrary text included) yields
LIBRE; in particular "separado" gives SEPARADO and "", "x" give LIBRE. -/
theorem C8_status_closure :
    (∀ s : String, normalizeStatus s ∈ ALLOWED_STATUS) ∧
    (∀ s : String, toUpperStr (normalizeText s) ≠ "SEPARADO" →
      toUpperStr (normalizeText s) ≠ "VENDIDO" → normalizeStatus s = "LIBRE") ∧
    normalizeStatus "separado" = "SEPARADO" ∧
    normalizeStatus "" = "LIBRE" ∧
    normalizeStatus "x" = "LIBRE" := by
  refine ⟨normalizeStatus_mem, ?_, by decide, by decide, by decide⟩
  intro s h1 h2
  by_cases hs : s = ""
  · subst hs; decide
  · simp only [normalizeStatus, if_neg hs]
    by_cases hc : ALLOWED_STATUS.contains (toUpperStr (normalizeText s)) = true
    · rw [if_pos hc]
      rcases (allowed_contains_iff _).1 hc with h | h | h
      · exact h
      · exact absurd h h1
      · exact absurd h h2
    · rw [if_neg hc]

/-- C8 witness: a concrete non-status input is normalized to LIBRE. -/
theorem C8_status_closure_witness :
    (toUpperStr (normalizeText "hola") ≠ "SEPARADO" ∧
      toUpperStr (normalizeText "hola") ≠ "VENDIDO") ∧
    normalizeStatus "hola" = "LIBRE" :=
  ⟨⟨by decide, by decide⟩, C8_status_closure.2.1 "hola" (by decide) (by decide)⟩

/-- C3: when no row's derived id equals the trimmed uppercased request
id, PUT /api/lotes/:id answers 404 (response none), returns the dataset
unchanged, and performs no CSV write. -/
theorem C3_not_found_atomic (now : DateTime) (idRaw : String) (p : Patch)
    (rows : List Row)
    (habs : ∀ row ∈ rows, rowIdMatches (toUpperStr (normalizeText idRaw)) row = false) :
    putLote now idRaw p rows = ⟨none, rows, false⟩ := by
  simp only [putLote]
  rw [jsFindIndex_none _ rows habs]
  have h : (-1 : Int) < 0 := by norm_num
  rw [if_pos h]

/-- C3 witness: updating the absent id Z-99 on the one-row dataset
leaves it untouched. -/
theorem C3_not_found_atomic_witness :
    (∀ row ∈ [rowA07], rowIdMatches (toUpperStr (normalizeText "Z-99")) row = false) ∧
    putLote nowW "Z-99" { estado := some "VENDIDO" } [rowA07] = ⟨none, [rowA07], false⟩ := by
  have h : ∀ row ∈ [rowA07], rowIdMatches (toUpperStr (normalizeText "Z-99")) row = false := by
    intro row hr
    rw [List.mem_singleton] at hr
    subst hr
    decide
  exact ⟨h, C3_not_found_atomic nowW "Z-99" { estado := some "VENDIDO" } [rowA07] h⟩

/-- C4: mapRowToLote rejects exactly the rows whose MZ is empty after
trimming or whose LOTE does not parse as an integer; every row it
accepts appears in the listing; and the two-row dataset of one
malformed and one valid row lists exactly the valid lot, with no
error. -/
theorem C4_malformed_row_isolation :
    (∀ row : Row, mapRowToLote row = none ↔
      (normalizeText row.MZ = "" ∨ parseIntJS (normalizeText row.LOTE) = none)) ∧
    (∀ (rows : List Row) (row : Row) (lot : Lote),
      row ∈ rows → mapRowToLote row = some lot → lot ∈ listLotes rows) ∧
    listLotes [badRow, rowA07] = [lotA07] := by
  refine ⟨fun row => ?_, fun rows row lot hmem hsome => ?_, by decide⟩
  · cases hp : parseIntJS (normalizeText row.LOTE) with
    | none => simp [mapRowToLote, hp]
    | some n =>
      by_cases hmz : normalizeText row.MZ = ""
      · have h2 : toUpperStr (normalizeText row.MZ) = "" := (toUpperStr_eq_empty_iff _).2 hmz
        simp [mapRowToLote, hp, h2, hmz]
        decide
      · have h2 : toUpperStr (normalizeText row.MZ) ≠ "" :=
          fun h => hmz ((toUpperStr_eq_empty_iff _).1 h)
        simp [mapRowToLote, hp, h2, hmz]
  · simp only [listLotes, List.mem_filterMap]
    exact ⟨row, hmem, hsome⟩

/-- C4 witness: the valid row of the mixed dataset is listed. -/
theorem C4_malformed_row_isolation_witness :
    (rowA07 ∈ [badRow, rowA07] ∧ mapRowToLote rowA07 = some lotA07) ∧
    lotA07 ∈ listLotes [badRow, rowA07] :=
  ⟨⟨by simp, by decide⟩,
    C4_malformed_row_isolation.2.1 [badRow, rowA07] rowA07 lotA07 (by simp) (by decide)⟩

/-- C5: after every recalcProforma, whatever field was last edited, the
discount amount lies in [0, precioRegular], the percentage in [0, 100],
and the promotional price equals precioRegular minus the discount and
lies in [0, precioRegular]; moreover editing descuentoPct to 50 on a
nonnegative regular price halves it exactly (rationals carry no
floating rounding). -/
theorem C5_discount_reconciliation :
    (∀ (le : LastEdited) (f : ℚ → String) (draft : ProformaState),
      0 ≤ (recalcProforma le f draft).descuentoSoles ∧
      (recalcProforma le f draft).descuentoSoles ≤ (recalcProforma le f draft).precioRegular ∧
      0 ≤ (recalcProforma le f draft).descuentoPct ∧
      (recalcProforma le f draft).descuentoPct ≤ 100 ∧
      (recalcProforma le f draft).precioPromocional =
        (recalcProforma le f draft).precioRegular - (recalcProforma le f draft).descuentoSoles ∧
      0 ≤ (recalcProforma le f draft).precioPromocional ∧
      (recalcProforma le f draft).precioPromocional ≤ (recalcProforma le f draft).precioRegular) ∧
    (∀ (f : ℚ → String) (draft : ProformaState),
      0 ≤ draft.precioRegular → draft.descuentoPct = 50 →
      (recalcProforma .pct f draft).precioPromocional = draft.precioRegular * (1 / 2) ∧
      (recalcProforma .pct f draft).descuentoSoles = draft.precioRegular * (1 / 2)) := by
  constructor
  · intro le f draft
    cases le with
    | soles =>
      simp only [recalcProforma]
      set r := max draft.precioRegular 0 with hrdef
      have hr : 0 ≤ r := le_max_right _ _
      obtain ⟨h0, h1⟩ := clamp_bounds (max draft.descuentoSoles 0) 0 r hr
      obtain ⟨hp0, hp1⟩ := pct_of_ratio r (clamp (max draft.descuentoSoles 0) 0 r) hr h0 h1
      obtain ⟨he, hg0, hgr⟩ := promo_bounds r (clamp (max draft.descuentoSoles 0) 0 r) h0 h1
      exact ⟨h0, h1, hp0, hp1, he, hg0, hgr⟩
    | pct =>
      simp only [recalcProforma]
      set r := max draft.precioRegular 0 with hrdef
      have hr : 0 ≤ r := le_max_right _ _
      obtain ⟨hq0, hq1⟩ := clamp_bounds (max draft.descuentoPct 0) 0 100 (by norm_num)
      set pct := clamp (max draft.descuentoPct 0) 0 100 with hpctdef
      have hs0 : 0 ≤ pct / 100 * r := mul_nonneg (div_nonneg hq0 (by norm_num)) hr
      have hs1 : pct / 100 * r ≤ r := by
        have hd : pct / 100 ≤ 1 := (div_le_one (by norm_num)).2 hq1
        calc pct / 100 * r ≤ 1 * r := mul_le_mul_of_nonneg_right hd hr
        _ = r := one_mul r
      obtain ⟨he, hg0, hgr⟩ := promo_bounds r (pct / 100 * r) hs0 hs1
      exact ⟨hs0, hs1, hq0, hq1, he, hg0, hgr⟩
    | promo =>
      simp only [recalcProforma]
      set r := max draft.precioRegular 0 with hrdef
      have hr : 0 ≤ r := le_max_right _ _
      obtain ⟨hq0, hq1⟩ := clamp_bounds (max draft.precioPromocional 0) 0 r hr
      set promo := clamp (max draft.precioPromocional 0) 0 r with hpromodef
      have hs_eq : max (r - promo) 0 = r - promo := max_eq_left (by linarith)
      have hs0 : 0 ≤ max (r - promo) 0 := le_max_right _ _
      have hs1 : max (r - promo) 0 ≤ r := by rw [hs_eq]; linarith
      obtain ⟨hp0, hp1⟩ := pct_of_ratio r (max (r - promo) 0) hr hs0 hs1
      refine ⟨hs0, hs1, hp0, hp1, ?_, hq0, hq1⟩
      rw [hs_eq]
      ring
    | noneEdited =>
      simp only [recalcProforma]
      set r := max draft.precioRegular 0 with hrdef
      have hr : 0 ≤ r := le_max_right _ _
      obtain ⟨hq0, hq1⟩ := clamp_bounds (max draft.precioPromocional 0) 0 r hr
      set promo := clamp (max draft.precioPromocional 0) 0 r with hpromodef
      have hs_eq : max (r - promo) 0 = r - promo := max_eq_left (by linarith)
      have hs0 : 0 ≤ max (r - promo) 0 := le_max_right _ _
      have hs1 : max (r - promo) 0 ≤ r := by rw [hs_eq]; linarith
      obtain ⟨hp0, hp1⟩ := pct_of_ratio r (max (r - promo) 0) hr hs0 hs1
      refine ⟨hs0, hs1, hp0, hp1, ?_, hq0, hq1⟩
      rw [hs_eq]
      ring
  · intro f draft hpr h50
    simp only [recalcProforma, h50]
    have hr : max draft.precioRegular 0 = draft.precioRegular := max_eq_left hpr
    have h1 : max (50 : ℚ) 0 = 50 := by norm_num
    have h2 : clamp (50 : ℚ) 0 100 = 50 := by
      rw [clamp]
      norm_num
    rw [hr, h1, h2]
    have h3 : (50 : ℚ) / 100 * draft.precioRegular = draft.precioRegular * (1 / 2) := by ring
    rw [h3]
    have h4 : draft.precioRegular - draft.precioRegular * (1 / 2) =
        draft.precioRegular * (1 / 2) := by ring
    rw [h4]
    have h5 : 0 ≤ draft.precioRegular * (1 / 2) := mul_nonneg hpr (by norm_num)
    exact ⟨max_eq_left h5, rfl⟩

/-- C5 witness: the 45000 draft with a 50 percent discount halves to
22500 on both derived fields. -/
theorem C5_discount_reconciliation_witness :
    (0 ≤ proformaW.precioRegular ∧ proformaW.descuentoPct = 50) ∧
    ((recalcProforma .pct fechaW proformaW).precioPromocional =
        proformaW.precioRegular * (1 / 2) ∧
      (recalcProforma .pct fechaW proformaW).descuentoSoles =
        proformaW.precioRegular * (1 / 2)) :=
  ⟨⟨by decide, by decide⟩,
    C5_discount_reconciliation.2 fechaW proformaW (by decide) (by decide)⟩

/-- C9 (counterexample): the legacy quote widget stores a submitted 100
down payment with no floor, and the quick-quote computation then uses
min(inicialMonto, precio) = 100, not 6000. -/
theorem C9_counterexample :
    legacyInicialOnChange "100" = some 100 ∧
    montoInicialOf legacyQuoteW = 100 ∧
    (100 : ℚ) ≠ 6000 := by decide

/-- C9 (amended): the 6000 floor holds in the proforma recompute
(recalcProforma raises any lower inicial to exactly 6000) and in the
floor-guarded down-payment inputs of the proforma app; the legacy quote
input stores the raw value and its quick-quote path caps by the price
instead. -/
theorem C9_down_payment_floor :
    (∀ (le : LastEdited) (f : ℚ → String) (draft : ProformaState),
      draft.inicial < 6000 → (recalcProforma le f draft).inicial = 6000) ∧
    (∀ (s : String) (q : ℚ),
      (if s = "" then numberJS "0" else numberJS s) = some q → q < 6000 →
      quoteInicialOnChange s = some 6000) := by
  constructor
  · intro le f draft h
    simp only [recalcProforma]
    by_cases hz : draft.inicial = 0
    · simp only [jsOr, if_pos hz]
      exact max_eq_right (by norm_num)
    · simp only [jsOr, if_neg hz]
      exact max_eq_right (le_of_lt h)
  · intro s q hq hlt
    unfold quoteInicialOnChange
    rw [hq]
    simp only [Option.map_some']
    rw [max_eq_right (le_of_lt hlt)]

/-- C9 witness: a 100 down payment is floored to 6000 by both the
recompute and the guarded input. -/
theorem C9_down_payment_floor_witness :
    (proformaW.inicial < 6000 ∧
      (if "100" = "" then numberJS "0" else numberJS "100") = some 100 ∧
      (100 : ℚ) < 6000) ∧
    ((recalcProforma .pct fechaW proformaW).inicial = 6000 ∧
      quoteInicialOnChange "100" = some 6000) :=
  ⟨⟨by decide, by decide, by decide⟩,
    ⟨C9_down_payment_floor.1 .pct fechaW proformaW (by decide),
      C9_down_payment_floor.2 "100" 100 (by decide) (by decide)⟩⟩

/-- Postcondition bundle of a found PUT: the write happens, only the
target row changes, the patched fields land normalized on the returned
lot, omitted fields keep their listed values, and the stamp is the
fresh clock reading. -/
def roundTripHolds (now : DateTime) (idRaw : String) (p : Patch)
    (pre post : List Row) (row : Row) : Prop :=
  ∃ lot : Lote,
    putLote now idRaw p (pre ++ row :: post) =
      ⟨some lot, pre ++ applyPatch now p row :: post, true⟩ ∧
    lot ∈ listLotes (pre ++ applyPatch now p row :: post) ∧
    (∀ e, p.estado = some e → lot.condicion = normalizeStatus e) ∧
    (∀ a, p.asesor = some a → lot.asesor = strOpt (normalizeText a)) ∧
    (∀ c, p.cliente = some c → lot.cliente = strOpt (normalizeText c)) ∧
    (∀ c, p.comentario = some c → lot.comentario = strOpt (normalizeText c)) ∧
    lot.ultimaModificacion = strOpt (normalizeText (toCurrentTimestamp now)) ∧
    (∀ old : Lote, mapRowToLote row = some old →
      (p.estado = none → lot.condicion = old.condicion) ∧
      (p.asesor = none → lot.asesor = old.asesor) ∧
      (p.cliente = none → lot.cliente = old.cliente) ∧
      (p.comentario = none → lot.comentario = old.comentario) ∧
      (p.price = none → lot.price = old.price) ∧
      lot.id = old.id ∧ lot.mz = old.mz ∧ lot.lote = old.lote ∧
      lot.areaM2 = old.areaM2 ∧
      (strOpt (normalizeText (toCurrentTimestamp now)) ≠ old.ultimaModificacion →
        lot.ultimaModificacion ≠ old.ultimaModificacion))

/-- A lot row whose stored stamp already is the display rendering of the
nowW clock second: an update within that same second repeats it. -/
def rowA07stamped : Row :=
  { MZ := "A", LOTE := "7", PRECIO := "45000", CONDICION := "libre"
    ULTIMA_MODIFICACION := "11-oct-26 14:30:00" }

/-- C1 (counterexample): the stamp is the second-granularity display
string `dd-mmm-aa hh:mi:ss`, so an update performed while the clock
still renders the stored stamp writes the identical string back — the
new ultimaModificacion equals the old one, not strictly newer. -/
theorem C1_counterexample :
    toCurrentTimestamp nowW = "11-oct-26 14:30:00" ∧
    (mapRowToLote rowA07stamped).map Lote.ultimaModificacion =
      some (some "11-oct-26 14:30:00") ∧
    (putLote nowW "A-07" patchW [rowA07stamped]).response.map Lote.ultimaModificacion =
      some (some "11-oct-26 14:30:00") := by decide

/-- C1 (amended): for a dataset in which `row` is the first row whose
derived id matches the request id, PUT applies exactly the patched
fields (estado normalized, text fields trimmed), keeps omitted fields
at their previous listed values, overwrites ultimaModificacion with the
display rendering of the update-time clock — strictly changing it
whenever the clock renders a different stamp, while a same-second
update repeats it — and the updated lot is what a subsequent
GET /api/lotes lists. -/
theorem C1_roundtrip_update (now : DateTime) (idRaw : String) (p : Patch)
    (pre post : List Row) (row : Row)
    (hpre : ∀ x ∈ pre, rowIdMatches (toUpperStr (normalizeText idRaw)) x = false)
    (hrow : rowIdMatches (toUpperStr (normalizeText idRaw)) row = true) :
    roundTripHolds now idRaw p pre post row := by
  obtain ⟨n, hp, hmz, hid⟩ := rowIdMatches_spec (toUpperStr (normalizeText idRaw)) row hrow
  have hput := putLote_found now idRaw p pre post row hpre hrow
  have hMZ : (applyPatch now p row).MZ = row.MZ := rfl
  have hLOTE : (applyPatch now p row).LOTE = row.LOTE := rfl
  have hmap := mapRowToLote_eq (applyPatch now p row) n
    (by rw [hLOTE]; exact hp) (by rw [hMZ]; exact hmz)
  refine ⟨_, hput.trans (by rw [hmap]), ?_, ?_, ?_, ?_, ?_, ?_, ?_⟩
  · simp only [listLotes, List.mem_filterMap]
    exact ⟨applyPatch now p row, by simp, hmap⟩
  · intro e he
    simp [applyPatch, he, normalizeStatus_idem]
  · intro a ha
    simp [applyPatch, ha, normalizeText_idem]
  · intro c hc
    simp [applyPatch, hc, normalizeText_idem]
  · intro c hc
    simp [applyPatch, hc, normalizeText_idem]
  · simp [applyPatch]
  · intro old hold
    rw [mapRowToLote_eq row n hp hmz] at hold
    have hold2 := Option.some.inj hold
    subst hold2
    refine ⟨?_, ?_, ?_, ?_, ?_, ?_, ?_, ?_, ?_, ?_⟩
    · intro h
      simp [applyPatch, h, normalizeStatus_idem]
    · intro h
      simp [applyPatch, h, normalizeText_idem]
    · intro h
      simp [applyPatch, h, normalizeText_idem]
    · intro h
      simp [applyPatch, h, normalizeText_idem]
    · intro h
      simp [applyPatch, h]
    · rfl
    · rfl
    · rfl
    · rfl
    · intro hne
      simpa only [applyPatch] using hne

/-- C1 witness: the end-to-end scenario row A-07, patched to SEPARADO
with client Juan Perez. -/
theorem C1_roundtrip_update_witness :
    ((∀ x ∈ ([] : List Row), rowIdMatches (toUpperStr (normalizeText "A-07")) x = false) ∧
      rowIdMatches (toUpperStr (normalizeText "A-07")) rowA07 = true) ∧
    roundTripHolds nowW "A-07" patchW [] [] rowA07 := by
  have h1 : ∀ x ∈ ([] : List Row),
      rowIdMatches (toUpperStr (normalizeText "A-07")) x = false := by simp
  have h2 : rowIdMatches (toUpperStr (normalizeText "A-07")) rowA07 = true := by decide
  exact ⟨⟨h1, h2⟩, C1_roundtrip_update nowW "A-07" patchW [] [] rowA07 h1 h2⟩

/-- Postcondition bundle of a PUT whose body is exactly the finite
number 0 in `price`: the stored PRECIO cell becomes empty and the lot
reads back with a null price. -/
def priceZeroClears (now : DateTime) (idRaw : String)
    (pre post : List Row) (row : Row) : Prop :=
  ∃ lot : Lote,
    (putLote now idRaw { price := some (.pnum 0) } (pre ++ row :: post)).response =
      some lot ∧
    lot.price = none ∧
    Row.PRECIO (applyPatch now { price := some (.pnum 0) } row) = "" ∧
    (putLote now idRaw { price := some (.pnum 0) } (pre ++ row :: post)).rows =
      pre ++ applyPatch now { price := some (.pnum 0) } row :: post ∧
    lot ∈ listLotes
      (putLote now idRaw { price := some (.pnum 0) } (pre ++ row :: post)).rows ∧
    cleanNumberVal (.pnum 0) = none

/-- C10: updating a found lot with price 0 stores an empty PRECIO cell,
because cleanNumber nulls every falsy input including the number 0, so
the response item and every subsequent listing carry price = null
rather than 0. -/
theorem C10_price_zero_clears (now : DateTime) (idRaw : String)
    (pre post : List Row) (row : Row)
    (hpre : ∀ x ∈ pre, rowIdMatches (toUpperStr (normalizeText idRaw)) x = false)
    (hrow : rowIdMatches (toUpperStr (normalizeText idRaw)) row = true) :
    priceZeroClears now idRaw pre post row := by
  obtain ⟨n, hp, hmz, hid⟩ := rowIdMatches_spec (toUpperStr (normalizeText idRaw)) row hrow
  have hput := putLote_found now idRaw { price := some (.pnum 0) } pre post row hpre hrow
  have hMZ : (applyPatch now { price := some (.pnum 0) } row).MZ = row.MZ := rfl
  have hLOTE : (applyPatch now { price := some (.pnum 0) } row).LOTE = row.LOTE := rfl
  have hprec : Row.PRECIO (applyPatch now { price := some (.pnum 0) } row) = "" := by
    simp [applyPatch, cleanNumberVal]
  have hmap := mapRowToLote_eq (applyPatch now { price := some (.pnum 0) } row) n
    (by rw [hLOTE]; exact hp) (by rw [hMZ]; exact hmz)
  refine ⟨_, by rw [hput]; exact hmap, ?_, hprec, by rw [hput], ?_, rfl⟩
  · show cleanNumber (Row.PRECIO (applyPatch now { price := some (.pnum 0) } row)) = none
    rw [hprec]
    rfl
  · rw [hput]
    simp only [listLotes, List.mem_filterMap]
    exact ⟨applyPatch now { price := some (.pnum 0) } row, by simp, hmap⟩

/-- C10 witness: clearing the price of lot A-07 with the number 0. -/
theorem C10_price_zero_clears_witness :
    ((∀ x ∈ ([] : List Row), rowIdMatches (toUpperStr (normalizeText "A-07")) x = false) ∧
      rowIdMatches (toUpperStr (normalizeText "A-07")) rowA07 = true) ∧
    priceZeroClears nowW "A-07" [] [] rowA07 := by
  have h1 : ∀ x ∈ ([] : List Row),
      rowIdMatches (toUpperStr (normalizeText "A-07")) x = false := by simp
  have h2 : rowIdMatches (toUpperStr (normalizeText "A-07")) rowA07 = true := by decide
  exact ⟨⟨h1, h2⟩, C10_price_zero_clears nowW "A-07" [] [] rowA07 h1 h2⟩

end Cotizador
